import Mathlib

/-!
Shallow embedding of the task_balancer repository's durable queueing and
lease protocol, verified against the natural-language specification.

Sources embedded here:
  * `src/app/init_db.py`        — the `tasks` table (data model).
  * `src/app/core/queue.py`     — LEASE_SQL / HEARTBEAT_SQL / MARK_RUNNING_SQL /
                                  MARK_DONE_SQL / MARK_FAILED_SQL and their
                                  Python wrappers.
  * `src/app/api/server.py`     — the signed `/v1/task-result` callback ingest.
  * `src/app/orchestrator/run.py` — the local orchestrator loop body.
  * `src/scripts/requeue_stale.py` — the janitor.

Conventions of the embedding:
  * timestamps are natural numbers (`now` is passed explicitly; SQL `now()`
    becomes the `now` argument);
  * SQL NULL becomes `Option.none`; a SQL comparison with NULL is three-valued
    and never satisfies a WHERE clause, which the embedding renders by matching
    on the `Option`;
  * a JSONB object is an association list `Doc`; the jsonb `||` operator
    (right operand wins, shallow) is `docMerge`;
  * the database is a `List TaskRow`; an UPDATE with `WHERE id = :id AND c`
    is a `List.map` that rewrites exactly the rows satisfying `id` and `c`;
  * the `updated_at` column is maintained by the `set_updated_at` trigger of
    `src/app/init_db.py` (it fires on every row actually updated), so every
    embedded row rewrite stamps `updated_at := now`.
-/

namespace TaskBalancer

/-- Task status enum `task_status` from `src/app/init_db.py`:
`('queued','leased','running','done','failed','canceled')`. -/
inductive Status where
  | queued
  | leased
  | running
  | done
  | failed
  | canceled
deriving DecidableEq, Repr

/-- A terminal status in the sense of the spec: done, failed or canceled. -/
def Status.isTerminal : Status → Bool
  | .done => true
  | .failed => true
  | .canceled => true
  | _ => false

/-- A JSONB object, flattened to one level: keys with opaque string values.
The core never introspects payload/result documents, so values are opaque. -/
abbrev Doc := List (String × String)

/-- First-match association lookup (jsonb object key access). -/
def docLookup (k : String) : Doc → Option String
  | [] => none
  | (k', v) :: rest => if k' = k then some v else docLookup k rest

/-- The jsonb `||` operator on objects: shallow merge, right operand wins.
`docMerge a b` keeps every key of `b` with `b`'s value and every key of `a`
not present in `b` with `a`'s value. -/
def docMerge (a b : Doc) : Doc :=
  a.filter (fun p => (docLookup p.1 b).isNone) ++ b

/-- One row of the `tasks` table.  Columns are those of
`src/app/init_db.py` plus the lease/heartbeat/backend columns referenced by
the SQL in `src/app/core/queue.py` and `src/scripts/requeue_stale.py`. -/
structure TaskRow where
  id : Nat
  task_type : String
  status : Status
  n : Int
  priority : Int
  attempts : Nat
  max_attempts : Nat
  target_backend : Option String
  backend : Option String
  backend_job_id : Option String
  leased_by : Option String
  leased_at : Option Nat
  lease_expires_at : Option Nat
  last_heartbeat_at : Option Nat
  payload : Doc
  result : Option Doc
  worker_meta : Option Doc
  error : Option String
  started_at : Option Nat
  finished_at : Option Nat
  exit_code : Option Int
  created_at : Nat
  updated_at : Nat
deriving DecidableEq, Repr

/-- The projection returned by `lease_one_task` (`@dataclass Task` of
`src/app/core/queue.py`, populated from the RETURNING list of LEASE_SQL). -/
structure Task where
  id : Nat
  task_type : String
  payload : Doc
  attempts : Nat
  max_attempts : Nat
  n : Int
  priority : Int
  status : Status
  target_backend : Option String
  backend : Option String
  backend_job_id : Option String
deriving DecidableEq, Repr

/-- Build the `Task` dataclass from a row (the RETURNING clause of LEASE_SQL). -/
def taskOfRow (r : TaskRow) : Task :=
  { id := r.id
    task_type := r.task_type
    payload := r.payload
    attempts := r.attempts
    max_attempts := r.max_attempts
    n := r.n
    priority := r.priority
    status := r.status
    target_backend := r.target_backend
    backend := r.backend
    backend_job_id := r.backend_job_id }

/-- SQL `lease_expires_at < now()` — false when the column is NULL. -/
def expiresBefore (now : Nat) : Option Nat → Bool
  | some e => e < now
  | none => false

/-- The target_backend disjunction of LEASE_SQL:
`(:tb IS NOT NULL AND target_backend = :tb) OR (:tb IS NULL AND target_backend IS NULL)`,
i.e. SQL `IS NOT DISTINCT FROM`. -/
def targetMatch (tb rtb : Option String) : Bool :=
  match tb with
  | some s => rtb = some s
  | none => rtb = none

/-- The WHERE clause of the `candidate` CTE of LEASE_SQL
(`src/app/core/queue.py` lines 26-41). -/
def eligibleB (tb : Option String) (now : Nat) (r : TaskRow) : Bool :=
  (r.status = Status.queued ∨
      (r.status = Status.leased ∧ expiresBefore now r.lease_expires_at)) ∧
    r.attempts < r.max_attempts ∧
    r.status ≠ Status.canceled ∧
    targetMatch tb r.target_backend

/-- Strict precedence under `ORDER BY priority DESC, created_at ASC`:
`betterB a b` holds when `b` comes strictly before `a`. -/
def betterB (a b : TaskRow) : Bool :=
  a.priority < b.priority ∨ (b.priority = a.priority ∧ b.created_at < a.created_at)

/-- One step of the ordered scan: keep the accumulator unless the next row
strictly precedes it under `ORDER BY priority DESC, created_at ASC`. -/
def pickMin (acc : Option TaskRow) (r : TaskRow) : Option TaskRow :=
  match acc with
  | none => some r
  | some a => if betterB a r then some r else some a

/-- The `LIMIT 1` selection over the eligible rows: the first row in the scan
that no later row strictly precedes (ties keep the earlier list element,
matching a deterministic scan). -/
def selectCandidate (tb : Option String) (now : Nat) (db : List TaskRow) :
    Option TaskRow :=
  (db.filter (eligibleB tb now)).foldl pickMin none

/-- The SET list of LEASE_SQL applied to the claimed row
(`src/app/core/queue.py` lines 42-51). -/
def leaseUpdate (leased_by : String) (lease_seconds now : Nat) (r : TaskRow) :
    TaskRow :=
  { r with
    status := Status.leased
    leased_by := some leased_by
    leased_at := some now
    last_heartbeat_at := some now
    lease_expires_at := some (now + lease_seconds)
    attempts := if r.status = Status.queued then r.attempts + 1 else r.attempts
    updated_at := now }

/-- Function `lease_one_task` (`src/app/core/queue.py` lines 67-105): run LEASE_SQL,
return the claimed row (post-update) and the new table state. -/
def leaseOneRow (leased_by : String) (lease_seconds : Nat) (tb : Option String)
    (now : Nat) (db : List TaskRow) : Option TaskRow × List TaskRow :=
  match selectCandidate tb now db with
  | none => (none, db)
  | some c =>
      (some (leaseUpdate leased_by lease_seconds now c),
        db.map (fun r => if r.id = c.id then leaseUpdate leased_by lease_seconds now r else r))

/-- The Python return value of `lease_one_task`: the `Task` dataclass built from
the RETURNING row, or `None`. -/
def lease_one_task (leased_by : String) (lease_seconds : Nat) (tb : Option String)
    (now : Nat) (db : List TaskRow) : Option Task × List TaskRow :=
  let out := leaseOneRow leased_by lease_seconds tb now db
  (out.1.map taskOfRow, out.2)

/-- HEARTBEAT_SQL (`src/app/core/queue.py` lines 108-118) restricted to the
row named by `id`: the WHERE clause beyond `id = :id`, and the SET list.
`meta` is the caller's `meta or {}` already serialized. -/
def heartbeatRow (leased_by : String) (lease_seconds : Nat) (meta : Doc)
    (now : Nat) (r : TaskRow) : TaskRow :=
  if r.leased_by = some leased_by ∧
      (r.status = Status.leased ∨ r.status = Status.running) then
    { r with
      lease_expires_at := some (now + lease_seconds)
      last_heartbeat_at := some now
      worker_meta := some (docMerge (r.worker_meta.getD []) meta)
      updated_at := now }
  else r

/-- MARK_RUNNING_SQL (`src/app/core/queue.py` lines 129-138) restricted to
the row named by `id`. -/
def markRunningRow (leased_by backend backend_job_id : String) (now : Nat)
    (r : TaskRow) : TaskRow :=
  if r.leased_by = some leased_by ∧ r.status = Status.leased then
    { r with
      status := Status.running
      backend := some backend
      backend_job_id := some backend_job_id
      started_at := some (r.started_at.getD now)
      last_heartbeat_at := some now
      updated_at := now }
  else r

/-- MARK_DONE_SQL (`src/app/core/queue.py` lines 149-159) restricted to the
row named by `id`: the only WHERE condition beyond the id is
`leased_by = :leased_by`. -/
def markDoneRow (leased_by : String) (result : Doc) (now : Nat) (r : TaskRow) :
    TaskRow :=
  if r.leased_by = some leased_by then
    { r with
      status := Status.done
      result := some result
      error := none
      finished_at := some now
      exit_code := some 0
      lease_expires_at := none
      updated_at := now }
  else r

/-- MARK_FAILED_SQL (`src/app/core/queue.py` lines 169-193) restricted to the
row named by `id`.  The Python wrapper computes
`new_status = 'queued' if retry else 'failed'` and feeds it to every CASE. -/
def markFailedRow (leased_by error : String) (retry : Bool) (now : Nat)
    (r : TaskRow) : TaskRow :=
  if r.leased_by = some leased_by ∧ r.status ≠ Status.canceled then
    { r with
      status := if retry then Status.queued else Status.failed
      error := some error
      finished_at := if retry then r.finished_at else some now
      exit_code := if retry then r.exit_code else some 1
      leased_by := if retry then none else r.leased_by
      lease_expires_at := if retry then none else r.lease_expires_at
      updated_at := now }
  else r

/-- An UPDATE with `WHERE id = :id AND c`, where `f` carries `c` and the SET
list: rewrite exactly the rows whose `id` matches. -/
def updateById (id : Nat) (f : TaskRow → TaskRow) (db : List TaskRow) :
    List TaskRow :=
  db.map (fun r => if r.id = id then f r else r)

/-- Operation `heartbeat` over the whole table. -/
def heartbeatDb (id : Nat) (leased_by : String) (lease_seconds : Nat)
    (meta : Doc) (now : Nat) : List TaskRow → List TaskRow :=
  updateById id (heartbeatRow leased_by lease_seconds meta now)

/-- Operation `mark_running` over the whole table. -/
def markRunningDb (id : Nat) (leased_by backend backend_job_id : String)
    (now : Nat) : List TaskRow → List TaskRow :=
  updateById id (markRunningRow leased_by backend backend_job_id now)

/-- Operation `mark_done` over the whole table. -/
def markDoneDb (id : Nat) (leased_by : String) (result : Doc) (now : Nat) :
    List TaskRow → List TaskRow :=
  updateById id (markDoneRow leased_by result now)

/-- Operation `mark_failed` over the whole table. -/
def markFailedDb (id : Nat) (leased_by error : String) (retry : Bool)
    (now : Nat) : List TaskRow → List TaskRow :=
  updateById id (markFailedRow leased_by error retry now)

/-! ### Store-operation traces

`src/app/api/server.py` and `src/app/orchestrator/run.py` are clients of the
queue protocol.  To state "which store mutations a code path invokes" we
record the calls as a trace of `StoreOp`s and interpret the trace over the
table with `applyTrace`. -/

/-- One invocation of a mutating queue-protocol function. -/
inductive StoreOp where
  | opMarkRunning (id : Nat) (leased_by backend backend_job_id : String)
  | opHeartbeat (id : Nat) (leased_by : String) (lease_seconds : Nat) (meta : Doc)
  | opMarkDone (id : Nat) (leased_by : String) (result : Doc)
  | opMarkFailed (id : Nat) (leased_by error : String) (retry : Bool)
deriving DecidableEq, Repr

/-- Interpret one store call over the table. -/
def applyOp (now : Nat) (db : List TaskRow) : StoreOp → List TaskRow
  | .opMarkRunning id lb b bj => markRunningDb id lb b bj now db
  | .opHeartbeat id lb ls m => heartbeatDb id lb ls m now db
  | .opMarkDone id lb res => markDoneDb id lb res now db
  | .opMarkFailed id lb e retry => markFailedDb id lb e retry now db

/-- Interpret a trace of store calls, in order. -/
def applyTrace (now : Nat) (ops : List StoreOp) (db : List TaskRow) :
    List TaskRow :=
  ops.foldl (applyOp now) db

/-! ### Callback ingest (`src/app/api/server.py`) -/

/-- The pydantic `ResultIn` model of `src/app/api/server.py`. -/
structure ResultIn where
  task_id : Nat
  leased_by : String
  ok : Bool
  result : Option Doc
  error : Option String
deriving DecidableEq, Repr

/-- Outcome of the `/v1/task-result` handler. -/
inductive Response where
  /-- Raised `HTTPException(status_code=401, detail="bad signature")`. -/
  | unauthorized
  /-- Either `json.loads` or `ResultIn(**data)` raised: no JSON response is built. -/
  | unprocessable
  /-- Body `ok true, status done`. -/
  | okDone
  /-- Body `ok true, status failed`. -/
  | okFailed
deriving DecidableEq, Repr

/-- Function `verify_sig` (`src/app/api/server.py` lines 30-35).  The HMAC-SHA256
primitive is abstracted as the function argument `mac` (keyed by the secret,
applied to the raw body, producing the hex digest); `hmac.compare_digest` is
constant-time string equality.  `_get_secret` reads `RESULT_SECRET` with
default `""`, so an unset secret arrives here as the empty string. -/
def verify_sig (mac : String → String → String) (secret body sig_hex : String) :
    Bool :=
  if secret = "" then false
  else mac secret body = sig_hex

/-- Python `x or default` for an optional dict: `None` and `{}` are falsy. -/
def pyOrDoc (d : Option Doc) (default : Doc) : Doc :=
  match d with
  | none => default
  | some v => if v = [] then default else v

/-- Python `x or default` for an optional string: `None` and `""` are falsy. -/
def pyOrStr (s : Option String) (default : String) : String :=
  match s with
  | none => default
  | some v => if v = "" then default else v

/-- The `/v1/task-result` handler (`src/app/api/server.py` lines 43-58).
`x_task_sig` defaults to `""` when the header is absent; `parse` stands for
`json.loads` followed by `ResultIn(**data)`, returning `none` when either
raises.  The result is the HTTP outcome plus the trace of store mutations
the handler invokes. -/
def task_result (mac : String → String → String) (secret body x_task_sig : String)
    (parse : String → Option ResultIn) : Response × List StoreOp :=
  if x_task_sig = "" ∨ verify_sig mac secret body x_task_sig = false then
    (Response.unauthorized, [])
  else
    match parse body with
    | none => (Response.unprocessable, [])
    | some payload =>
        if payload.ok then
          (Response.okDone,
            [StoreOp.opMarkDone payload.task_id payload.leased_by
              (pyOrDoc payload.result [("ok", "true")])])
        else
          (Response.okFailed,
            [StoreOp.opMarkFailed payload.task_id payload.leased_by
              (pyOrStr payload.error "unknown error") false])

/-! ### Orchestrator loop body (`src/app/orchestrator/run.py`) -/

/-- Constant `LEASE_SECONDS` of `src/app/orchestrator/run.py`. -/
def LEASE_SECONDS : Nat := 120

/-- The body of the orchestrator loop for one successfully leased task
(`src/app/orchestrator/run.py` lines 59-72): unconditionally
`mark_running`, `heartbeat`, then `execute_local`; on normal return
`mark_done`, on exception `mark_failed` with
`retry = task.attempts < task.max_attempts`.  The in-process execution
outcome is the `exec` argument (`Except.error` models a raised exception);
the function returns the trace of store calls the iteration makes.  Nothing
in the body inspects how many rows a store call affected. -/
def orchestrate_iteration (leased_by : String) (t : Task)
    (exec : Except String Doc) : List StoreOp :=
  StoreOp.opMarkRunning t.id leased_by "local" "" ::
  StoreOp.opHeartbeat t.id leased_by LEASE_SECONDS [("stage", "executing")] ::
  (match exec with
  | Except.ok result => [StoreOp.opMarkDone t.id leased_by result]
  | Except.error e =>
      [StoreOp.opMarkFailed t.id leased_by e (decide (t.attempts < t.max_attempts))])

/-! ### Janitor (`src/scripts/requeue_stale.py`) -/

/-- WHERE clause of REQUEUE_LEASED_SQL:
`status = 'leased' AND lease_expires_at IS NOT NULL AND lease_expires_at < now()`
(`expiresBefore` is false on NULL, covering the IS NOT NULL conjunct). -/
def leasedStaleB (now : Nat) (r : TaskRow) : Bool :=
  r.status = Status.leased ∧ expiresBefore now r.lease_expires_at

/-- WHERE clause of REQUEUE_RUNNING_SQL:
`status = 'running' AND last_heartbeat_at IS NOT NULL AND
last_heartbeat_at < now() - :running_stale_seconds` (Nat subtraction
truncates at 0, matching the SQL comparison against a pre-epoch bound). -/
def heartbeatStaleB (stale now : Nat) (r : TaskRow) : Bool :=
  r.status = Status.running ∧ expiresBefore (now - stale) r.last_heartbeat_at

/-- SET list of REQUEUE_LEASED_SQL applied to a matching row. -/
def requeueLeasedRow (now : Nat) (r : TaskRow) : TaskRow :=
  if leasedStaleB now r then
    { r with
      status := Status.queued
      leased_by := none
      leased_at := none
      lease_expires_at := none
      last_heartbeat_at := none
      updated_at := now }
  else r

/-- SET list of REQUEUE_RUNNING_SQL applied to a matching row. -/
def requeueRunningRow (stale now : Nat) (r : TaskRow) : TaskRow :=
  if heartbeatStaleB stale now r then
    { r with
      status := Status.queued
      leased_by := none
      leased_at := none
      lease_expires_at := none
      last_heartbeat_at := none
      backend := none
      backend_job_id := none
      started_at := none
      updated_at := now }
  else r

/-- Function `main` of `src/scripts/requeue_stale.py`: count the stale leased and
stale running rows; without `--yes` (`apply = false`) stop there; with
`--yes` run REQUEUE_LEASED_SQL then REQUEUE_RUNNING_SQL and commit once.
Returns the two counts and the resulting table. -/
def requeue_stale (stale : Nat) (apply : Bool) (now : Nat)
    (db : List TaskRow) : (Nat × Nat) × List TaskRow :=
  let counts := ((db.filter (leasedStaleB now)).length,
                 (db.filter (heartbeatStaleB stale now)).length)
  if apply then
    (counts, (db.map (requeueLeasedRow now)).map (requeueRunningRow stale now))
  else
    (counts, db)

/-- The `leased_by` argument a store call carries. -/
def opLeasedBy : StoreOp → String
  | .opMarkRunning _ lb _ _ => lb
  | .opHeartbeat _ lb _ _ => lb
  | .opMarkDone _ lb _ => lb
  | .opMarkFailed _ lb _ _ => lb

/-! ### Sample rows used by witnesses and counterexamples -/

/-- A leased demo task held by `"host:a"`. -/
def row0 : TaskRow :=
  { id := 1
    task_type := "demo_sleep"
    status := Status.leased
    n := 3
    priority := 100
    attempts := 1
    max_attempts := 3
    target_backend := some "local"
    backend := none
    backend_job_id := none
    leased_by := some "host:a"
    leased_at := some 10
    lease_expires_at := some 130
    last_heartbeat_at := some 10
    payload := [("sleep_s", "0")]
    result := none
    worker_meta := none
    error := none
    started_at := none
    finished_at := none
    exit_code := none
    created_at := 5
    updated_at := 10 }

/-- A freshly enqueued row (leased_by and lease_expires_at NULL). -/
def qrow : TaskRow :=
  { row0 with
    id := 2
    status := Status.queued
    attempts := 0
    leased_by := none
    leased_at := none
    lease_expires_at := none
    last_heartbeat_at := none }

/-! ### Helper lemmas -/

/-- Lookup over the jsonb merge: a key of the right operand takes the right
operand's value, any other key keeps the left operand's value. -/
theorem docLookup_docMerge (k : String) (a b : Doc) :
    docLookup k (docMerge a b) =
      match docLookup k b with
      | some v => some v
      | none => docLookup k a := by
  induction a with
  | nil =>
      cases hb : docLookup k b <;> simp [docMerge, docLookup, hb]
  | cons p rest ih =>
      obtain ⟨k', v'⟩ := p
      by_cases hk : k' = k
      · subst hk
        cases hb : docLookup k' b <;>
          simp_all [docMerge, docLookup, hb, List.filter_cons]
      · cases hb : docLookup k b <;>
          cases hb' : docLookup k' b <;>
          simp_all [docMerge, docLookup, List.filter_cons]

/-- Calling `mark_running` with a `leased_by` that does not match the row. -/
theorem markRunningRow_mismatch {r : TaskRow} {lb : String}
    (h : r.leased_by ≠ some lb) (b bj : String) (now : Nat) :
    markRunningRow lb b bj now r = r := by
  simp [markRunningRow, h]

/-- Calling `heartbeat` with a `leased_by` that does not match the row. -/
theorem heartbeatRow_mismatch {r : TaskRow} {lb : String}
    (h : r.leased_by ≠ some lb) (ls : Nat) (meta : Doc) (now : Nat) :
    heartbeatRow lb ls meta now r = r := by
  simp [heartbeatRow, h]

/-- Calling `mark_done` with a `leased_by` that does not match the row. -/
theorem markDoneRow_mismatch {r : TaskRow} {lb : String}
    (h : r.leased_by ≠ some lb) (res : Doc) (now : Nat) :
    markDoneRow lb res now r = r := by
  simp [markDoneRow, h]

/-- Calling `mark_failed` with a `leased_by` that does not match the row. -/
theorem markFailedRow_mismatch {r : TaskRow} {lb : String}
    (h : r.leased_by ≠ some lb) (e : String) (retry : Bool) (now : Nat) :
    markFailedRow lb e retry now r = r := by
  simp [markFailedRow, h]

/-- A map that fixes every element of the list is the identity. -/
theorem map_eq_self_of_fixed {α : Type} {f : α → α} {l : List α}
    (h : ∀ x ∈ l, f x = x) : l.map f = l := by
  induction l with
  | nil => rfl
  | cons x xs ih =>
      simp only [List.map_cons]
      rw [h x (List.mem_cons_self x xs),
        ih (fun y hy => h y (List.mem_cons_of_mem x hy))]

/-- A store call whose `leased_by` matches no row of the table leaves the
table unchanged. -/
theorem applyOp_mismatch {db : List TaskRow} {op : StoreOp} (now : Nat)
    (h : ∀ r ∈ db, r.leased_by ≠ some (opLeasedBy op)) :
    applyOp now db op = db := by
  cases op with
  | opMarkRunning id lb b bj =>
      simp only [opLeasedBy] at h
      simp only [applyOp, markRunningDb, updateById]
      refine map_eq_self_of_fixed (fun r hr => ?_)
      rw [markRunningRow_mismatch (h r hr) b bj now, ite_self]
  | opHeartbeat id lb ls m =>
      simp only [opLeasedBy] at h
      simp only [applyOp, heartbeatDb, updateById]
      refine map_eq_self_of_fixed (fun r hr => ?_)
      rw [heartbeatRow_mismatch (h r hr) ls m now, ite_self]
  | opMarkDone id lb res =>
      simp only [opLeasedBy] at h
      simp only [applyOp, markDoneDb, updateById]
      refine map_eq_self_of_fixed (fun r hr => ?_)
      rw [markDoneRow_mismatch (h r hr) res now, ite_self]
  | opMarkFailed id lb e retry =>
      simp only [opLeasedBy] at h
      simp only [applyOp, markFailedDb, updateById]
      refine map_eq_self_of_fixed (fun r hr => ?_)
      rw [markFailedRow_mismatch (h r hr) e retry now, ite_self]

/-! ### Claim theorems -/

/-- C3 — Ownership guard: calling any of mark_running, heartbeat, mark_done
or mark_failed with a `leased_by` argument different from the row's current
`leased_by` (including a row whose `leased_by` is NULL) leaves the row
completely unchanged; in particular (S5) a callback carrying the `leased_by`
of a prior leaseholder leaves a row that has since been re-leased unchanged
in the table. -/
theorem C3_ownership_guard (r : TaskRow) (lb : String)
    (hmismatch : r.leased_by ≠ some lb) :
    (∀ b bj now, markRunningRow lb b bj now r = r) ∧
    (∀ ls meta now, heartbeatRow lb ls meta now r = r) ∧
    (∀ res now, markDoneRow lb res now r = r) ∧
    (∀ e retry now, markFailedRow lb e retry now r = r) ∧
    (∀ res e now (db : List TaskRow), (∀ x ∈ db, x.leased_by ≠ some lb) →
      markDoneDb r.id lb res now db = db ∧
      markFailedDb r.id lb e false now db = db) := by
  refine ⟨fun b bj now => markRunningRow_mismatch hmismatch b bj now,
    fun ls meta now => heartbeatRow_mismatch hmismatch ls meta now,
    fun res now => markDoneRow_mismatch hmismatch res now,
    fun e retry now => markFailedRow_mismatch hmismatch e retry now,
    fun res e now db hdb => ⟨?_, ?_⟩⟩
  · simp only [markDoneDb, updateById]
    refine map_eq_self_of_fixed (fun x hx => ?_)
    rw [markDoneRow_mismatch (hdb x hx) res now, ite_self]
  · simp only [markFailedDb, updateById]
    refine map_eq_self_of_fixed (fun x hx => ?_)
    rw [markFailedRow_mismatch (hdb x hx) e false now, ite_self]

/-- Witness for C3 at a concrete row: `row0` is leased by `"host:a"`, and a
`mark_done` carrying `"host:b"` leaves it unchanged. -/
theorem C3_ownership_guard_witness :
    markDoneRow "host:b" [] 50 row0 = row0 :=
  (C3_ownership_guard row0 "host:b" (by decide)).2.2.1 [] 50

/-- C5 — Retry round-trip: lease a freshly queued row (leased_by and
lease_expires_at NULL), then `mark_failed(retry=true)` with the matching
leaseholder: the result agrees with the initial queued row on status,
leased_by and lease_expires_at, its attempts are the initial attempts plus
one, and its error is the recorded error; and `mark_failed(retry=true)`
refuses to act on canceled rows. -/
theorem C5_retry_round_trip (q : TaskRow) (lb err : String)
    (ls now1 now2 : Nat)
    (hq : q.status = Status.queued) (hlb : q.leased_by = none)
    (hle : q.lease_expires_at = none) :
    ((markFailedRow lb err true now2 (leaseUpdate lb ls now1 q)).status = q.status ∧
     (markFailedRow lb err true now2 (leaseUpdate lb ls now1 q)).leased_by = q.leased_by ∧
     (markFailedRow lb err true now2 (leaseUpdate lb ls now1 q)).lease_expires_at =
       q.lease_expires_at ∧
     (markFailedRow lb err true now2 (leaseUpdate lb ls now1 q)).attempts = q.attempts + 1 ∧
     (markFailedRow lb err true now2 (leaseUpdate lb ls now1 q)).error = some err) ∧
    (∀ c : TaskRow, c.status = Status.canceled →
      markFailedRow lb err true now2 c = c) := by
  constructor
  · simp [markFailedRow, leaseUpdate, hq, hlb, hle]
  · intro c hc
    simp [markFailedRow, hc]

/-- Witness for C5 at the concrete queued row `qrow`. -/
theorem C5_retry_round_trip_witness :
    (markFailedRow "host:a" "boom" true 60 (leaseUpdate "host:a" 120 20 qrow)).status =
      qrow.status ∧
    (markFailedRow "host:a" "boom" true 60 (leaseUpdate "host:a" 120 20 qrow)).attempts =
      qrow.attempts + 1 := by
  have h := C5_retry_round_trip qrow "host:a" "boom" 120 20 60 rfl rfl rfl
  exact ⟨h.1.1, h.1.2.2.2.1⟩

/-- C8 — mark_failed(retry=false): on a non-canceled row with matching
leaseholder it sets status failed, stores the error, stamps finished_at and
exit_code = 1, and leaves leased_by and lease_expires_at exactly as they
were; on a canceled row it changes nothing. -/
theorem C8_mark_failed_no_retry (r : TaskRow) (lb err : String) (now : Nat)
    (hmatch : r.leased_by = some lb) :
    (r.status ≠ Status.canceled →
      (markFailedRow lb err false now r).status = Status.failed ∧
      (markFailedRow lb err false now r).error = some err ∧
      (markFailedRow lb err false now r).finished_at = some now ∧
      (markFailedRow lb err false now r).exit_code = some 1 ∧
      (markFailedRow lb err false now r).leased_by = r.leased_by ∧
      (markFailedRow lb err false now r).lease_expires_at = r.lease_expires_at) ∧
    (r.status = Status.canceled → markFailedRow lb err false now r = r) := by
  constructor
  · intro hnc
    simp [markFailedRow, hmatch, hnc]
  · intro hc
    simp [markFailedRow, hc]

/-- Witness for C8 at the concrete leased row `row0`. -/
theorem C8_mark_failed_no_retry_witness :
    (markFailedRow "host:a" "boom" false 60 row0).status = Status.failed ∧
    (markFailedRow "host:a" "boom" false 60 row0).leased_by = row0.leased_by := by
  have h :=
    (C8_mark_failed_no_retry row0 "host:a" "boom" 60 rfl).1 (by decide)
  exact ⟨h.1, h.2.2.2.2.1⟩

/-- C10 — heartbeat revives an expired lease: on a row with status leased or
running and matching leaseholder, heartbeat succeeds with no condition on
`lease_expires_at` (the lease is extended to now + lease_seconds even when
already expired), refreshes `last_heartbeat_at`, keeps the status, and
shallow-merges `meta` into `worker_meta` server-side: every key of `meta`
gets `meta`'s value and every key absent from `meta` keeps its old value. -/
theorem C10_heartbeat_revives (r : TaskRow) (lb : String) (ls : Nat)
    (meta : Doc) (now : Nat)
    (hmatch : r.leased_by = some lb)
    (hstatus : r.status = Status.leased ∨ r.status = Status.running) :
    (heartbeatRow lb ls meta now r).lease_expires_at = some (now + ls) ∧
    (heartbeatRow lb ls meta now r).last_heartbeat_at = some now ∧
    (heartbeatRow lb ls meta now r).status = r.status ∧
    ∃ m, (heartbeatRow lb ls meta now r).worker_meta = some m ∧
      (∀ k v, docLookup k meta = some v → docLookup k m = some v) ∧
      (∀ k, docLookup k meta = none →
        docLookup k m = docLookup k (r.worker_meta.getD [])) := by
  have hguard : r.leased_by = some lb ∧
      (r.status = Status.leased ∨ r.status = Status.running) := ⟨hmatch, hstatus⟩
  refine ⟨?_, ?_, ?_, docMerge (r.worker_meta.getD []) meta, ?_, ?_, ?_⟩
  · simp [heartbeatRow, hguard]
  · simp [heartbeatRow, hguard]
  · simp [heartbeatRow, hguard]
  · simp [heartbeatRow, hguard]
  · intro k v hk
    rw [docLookup_docMerge, hk]
  · intro k hk
    rw [docLookup_docMerge, hk]

/-- Witness for C10 at the concrete leased row `row0` with an already
expired lease (`lease_expires_at = 130 < now = 500`). -/
theorem C10_heartbeat_revives_witness :
    (heartbeatRow "host:a" 120 [("stage", "executing")] 500 row0).lease_expires_at =
      some 620 ∧
    (heartbeatRow "host:a" 120 [("stage", "executing")] 500 row0).status = row0.status := by
  have h := C10_heartbeat_revives row0 "host:a" 120 [("stage", "executing")] 500 rfl
    (Or.inl rfl)
  exact ⟨h.1, h.2.2.1⟩

/-- C1 counterexample — sticky terminals fail for mark_done: MARK_DONE_SQL's
only WHERE condition besides the id is `leased_by = :leased_by`, so on a row
already in status failed (which `mark_failed(retry=false)` leaves with its
`leased_by` intact) a `mark_done` carrying the matching leaseholder rewrites
the status to done. -/
theorem C1_counterexample :
    ({ row0 with status := Status.failed } : TaskRow).status = Status.failed ∧
    ({ row0 with status := Status.failed } : TaskRow).leased_by = some "host:a" ∧
    (markDoneRow "host:a" [] 50 { row0 with status := Status.failed }).status =
      Status.done := by
  refine ⟨rfl, rfl, ?_⟩
  simp [markDoneRow, row0]

/-- C1 amended — sticky terminals hold for mark_running and heartbeat (their
WHERE clauses require status leased, resp. leased/running), and mark_failed
never touches a canceled row; but mark_done with a matching `leased_by` sets
a failed or canceled row to done, and mark_failed with a matching `leased_by`
moves a done row out of done (to failed or queued). -/
theorem C1_sticky_terminals_amended (r : TaskRow) (lb b bj e : String)
    (res meta : Doc) (ls now : Nat) :
    (r.status.isTerminal = true → markRunningRow lb b bj now r = r) ∧
    (r.status.isTerminal = true → heartbeatRow lb ls meta now r = r) ∧
    (r.status = Status.canceled → ∀ retry, markFailedRow lb e retry now r = r) ∧
    ((r.status = Status.failed ∨ r.status = Status.canceled) →
      r.leased_by = some lb → (markDoneRow lb res now r).status = Status.done) ∧
    (r.status = Status.done → r.leased_by = some lb →
      (markFailedRow lb e false now r).status = Status.failed) := by
  refine ⟨?_, ?_, ?_, ?_, ?_⟩
  · intro ht
    cases hs : r.status <;> simp [hs, Status.isTerminal] at ht ⊢ <;>
      simp [markRunningRow, hs]
  · intro ht
    cases hs : r.status <;> simp [hs, Status.isTerminal] at ht ⊢ <;>
      simp [heartbeatRow, hs]
  · intro hc retry
    simp [markFailedRow, hc]
  · intro _ hm
    simp [markDoneRow, hm]
  · intro hd hm
    have : r.status ≠ Status.canceled := by rw [hd]; intro h; cases h
    simp [markFailedRow, hm, this]

/-- Witness for the amended C1 at a concrete canceled row. -/
theorem C1_sticky_terminals_amended_witness :
    markRunningRow "host:a" "local" "" 50 { row0 with status := Status.canceled } =
      { row0 with status := Status.canceled } :=
  (C1_sticky_terminals_amended { row0 with status := Status.canceled }
    "host:a" "local" "" "e" [] [] 120 50).1 rfl

/-- C6 counterexample — the retry gate is absent from MARK_FAILED_SQL: on a
row whose attempts already equal max_attempts (and whose leaseholder
matches), `mark_failed(retry=true)` still writes status queued. -/
theorem C6_counterexample :
    ({ row0 with attempts := 3 } : TaskRow).attempts =
      ({ row0 with attempts := 3 } : TaskRow).max_attempts ∧
    (markFailedRow "host:a" "boom" true 50 { row0 with attempts := 3 }).status =
      Status.queued := by
  refine ⟨rfl, ?_⟩
  simp [markFailedRow, row0]

/-- C6 amended — MARK_FAILED_SQL has no `attempts < max_attempts` gate: the
requeue happens regardless of the remaining budget.  What does hold:
mark_failed never changes attempts or max_attempts, so it preserves
`attempts ≤ max_attempts`; the gate is enforced by lease_one's eligibility
predicate, so a row with an exhausted budget is never eligible to be leased
again; and the orchestrator's own call site only passes retry=true when
`attempts < max_attempts`. -/
theorem C6_retry_gate_amended (r : TaskRow) (lb e : String) (retry : Bool)
    (now now2 : Nat) (tb : Option String) :
    (markFailedRow lb e retry now r).attempts = r.attempts ∧
    (markFailedRow lb e retry now r).max_attempts = r.max_attempts ∧
    (r.attempts ≤ r.max_attempts →
      (markFailedRow lb e retry now r).attempts ≤
        (markFailedRow lb e retry now r).max_attempts) ∧
    (r.max_attempts ≤ r.attempts → eligibleB tb now2 r = false) ∧
    (∀ (t : Task) (msg e2 : String),
      StoreOp.opMarkFailed t.id lb e2 true ∈
        orchestrate_iteration lb t (Except.error msg) →
      t.attempts < t.max_attempts) := by
  have ha : (markFailedRow lb e retry now r).attempts = r.attempts := by
    by_cases h : r.leased_by = some lb ∧ r.status ≠ Status.canceled <;>
      simp [markFailedRow, h]
  have hm : (markFailedRow lb e retry now r).max_attempts = r.max_attempts := by
    by_cases h : r.leased_by = some lb ∧ r.status ≠ Status.canceled <;>
      simp [markFailedRow, h]
  refine ⟨ha, hm, ?_, ?_, ?_⟩
  · intro hle
    rw [ha, hm]; exact hle
  · intro hex
    simp only [eligibleB]
    have : ¬ r.attempts < r.max_attempts := Nat.not_lt.mpr hex
    simp [this]
  · intro t msg e2 hmem
    simp only [orchestrate_iteration, List.mem_cons, List.not_mem_nil,
      or_false] at hmem
    rcases hmem with h | h | h
    · cases h
    · cases h
    · injection h with h1 h2 h3 h4
      exact of_decide_eq_true h4.symm

/-- Witness for the amended C6: a row with exhausted attempt budget is not
eligible for lease_one. -/
theorem C6_retry_gate_amended_witness :
    eligibleB (some "local") 100 ({ row0 with attempts := 3 }) = false :=
  (C6_retry_gate_amended { row0 with attempts := 3 } "host:a" "e" true 50 100
    (some "local")).2.2.2.1 (by decide)

/-- C4 — Signature required: a POST whose `x-task-sig` header is absent
(FastAPI default `""`), or whose signature is not the MAC of the raw body
under the secret, or that arrives while RESULT_SECRET is unset/empty, is
answered 401 "bad signature" with an empty store-call trace (applying that
trace changes nothing); conversely, any store call the handler emits implies
the header was present and `verify_sig` accepted it.  Universally quantified
over the MAC primitive `mac` and the body parser `parse`. -/
theorem C4_signature_required (mac : String → String → String)
    (secret body sig : String) (parse : String → Option ResultIn) :
    ((sig = "" ∨ secret = "" ∨ mac secret body ≠ sig) →
      task_result mac secret body sig parse = (Response.unauthorized, []) ∧
      (∀ now db, applyTrace now (task_result mac secret body sig parse).2 db = db)) ∧
    (∀ op, op ∈ (task_result mac secret body sig parse).2 →
      sig ≠ "" ∧ verify_sig mac secret body sig = true) := by
  constructor
  · intro hbad
    have hcond : sig = "" ∨ verify_sig mac secret body sig = false := by
      rcases hbad with h | h | h
      · exact Or.inl h
      · exact Or.inr (by simp [verify_sig, h])
      · by_cases hs : secret = ""
        · exact Or.inr (by simp [verify_sig, hs])
        · exact Or.inr (by simp [verify_sig, hs, h])
    have heq : task_result mac secret body sig parse = (Response.unauthorized, []) := by
      simp only [task_result]
      rw [if_pos hcond]
    exact ⟨heq, fun now db => by rw [heq]; rfl⟩
  · intro op hop
    by_cases hcond : sig = "" ∨ verify_sig mac secret body sig = false
    · exfalso
      simp only [task_result] at hop
      rw [if_pos hcond] at hop
      simp at hop
    · push_neg at hcond
      refine ⟨hcond.1, ?_⟩
      cases hv : verify_sig mac secret body sig
      · exact absurd hv hcond.2
      · rfl

/-- Witness for C4: with an empty RESULT_SECRET every request is rejected
with 401 and an empty trace. -/
theorem C4_signature_required_witness :
    task_result (fun s b => s ++ b) "" "body" "sig" (fun _ => none) =
      (Response.unauthorized, []) :=
  (((C4_signature_required (fun s b => s ++ b) "" "body" "sig" (fun _ => none)).1)
    (Or.inr (Or.inl rfl))).1

/-- A trace of store calls none of whose `leased_by` arguments matches any
row leaves the table unchanged. -/
theorem applyTrace_mismatch (now : Nat) :
    ∀ (ops : List StoreOp) (db : List TaskRow),
      (∀ op ∈ ops, ∀ r ∈ db, r.leased_by ≠ some (opLeasedBy op)) →
      applyTrace now ops db = db
  | [], _, _ => rfl
  | op :: rest, db, h => by
      show List.foldl (applyOp now) db (op :: rest) = db
      rw [List.foldl_cons, applyOp_mismatch now (h op (List.mem_cons_self op rest))]
      exact applyTrace_mismatch now rest db
        (fun o ho r hr => h o (List.mem_cons_of_mem op ho) r hr)

/-- C7 counterexample — the orchestrator does not abandon on a stale lease:
with the single table row re-leased to `"host:b"`, `mark_running` by
`"host:a"` affects zero rows (the table is unchanged), yet the iteration's
trace still contains the subsequent `mark_done` call. -/
theorem C7_counterexample :
    markRunningDb (taskOfRow row0).id "host:a" "local" "" 50
        [{ row0 with leased_by := some "host:b" }] =
      [{ row0 with leased_by := some "host:b" }] ∧
    StoreOp.opMarkDone (taskOfRow row0).id "host:a" [("ok", "true")] ∈
      orchestrate_iteration "host:a" (taskOfRow row0)
        (Except.ok [("ok", "true")]) := by
  constructor
  · simp only [markRunningDb, updateById]
    refine map_eq_self_of_fixed (fun x hx => ?_)
    rw [List.mem_singleton] at hx
    subst hx
    rw [markRunningRow_mismatch (by decide) "local" "" 50, ite_self]
  · simp [orchestrate_iteration]

/-- C7 amended — `run.py` never inspects how many rows `mark_running`
affected: the iteration always issues the full trace ending in `mark_done`
(or `mark_failed`); however, when no row of the table is still leased by
this orchestrator, every call of the trace is a zero-row update, so the
whole iteration leaves the table unchanged (the re-leased row is never
clobbered). -/
theorem C7_stale_lease_amended (lb : String) (t : Task)
    (exec : Except String Doc) (db : List TaskRow) (now : Nat)
    (hlost : ∀ r ∈ db, r.leased_by ≠ some lb) :
    (∀ res, exec = Except.ok res →
      orchestrate_iteration lb t exec =
        [StoreOp.opMarkRunning t.id lb "local" "",
         StoreOp.opHeartbeat t.id lb LEASE_SECONDS [("stage", "executing")],
         StoreOp.opMarkDone t.id lb res]) ∧
    (∀ msg, exec = Except.error msg →
      orchestrate_iteration lb t exec =
        [StoreOp.opMarkRunning t.id lb "local" "",
         StoreOp.opHeartbeat t.id lb LEASE_SECONDS [("stage", "executing")],
         StoreOp.opMarkFailed t.id lb msg (decide (t.attempts < t.max_attempts))]) ∧
    applyTrace now (orchestrate_iteration lb t exec) db = db := by
  refine ⟨fun res h => by subst h; rfl, fun msg h => by subst h; rfl, ?_⟩
  refine applyTrace_mismatch now _ db (fun op hop r hr => ?_)
  have hlb : opLeasedBy op = lb := by
    cases exec <;>
      simp only [orchestrate_iteration, List.mem_cons, List.not_mem_nil,
        or_false] at hop <;>
      rcases hop with h | h | h <;> subst h <;> rfl
  rw [hlb]
  exact hlost r hr

/-- Witness for the amended C7 at a concrete table: the full iteration of
`"host:a"` leaves the table unchanged once the row belongs to `"host:b"`. -/
theorem C7_stale_lease_amended_witness :
    applyTrace 50
        (orchestrate_iteration "host:a" (taskOfRow row0) (Except.ok []))
        [{ row0 with leased_by := some "host:b" }] =
      [{ row0 with leased_by := some "host:b" }] :=
  (C7_stale_lease_amended "host:a" (taskOfRow row0) (Except.ok [])
    [{ row0 with leased_by := some "host:b" }] 50
    (by intro r hr; rw [List.mem_singleton] at hr; subst hr; decide)).2.2

/-- No row strictly precedes itself. -/
theorem betterB_irrefl (c : TaskRow) : betterB c c = false := by
  simp [betterB]

/-- Not-strictly-preceded is transitive along the scan order. -/
theorem noBetter_trans {c a x : TaskRow} (h1 : betterB c a = false)
    (h2 : betterB a x = false) : betterB c x = false := by
  simp only [betterB, decide_eq_false_iff_not, not_or, not_and, not_lt] at *
  omega

/-- If `r` strictly precedes `a` and `c` is not preceded by `r`, then `c`
is not preceded by `a` either. -/
theorem noBetter_of_replace {c a r : TaskRow} (h1 : betterB c r = false)
    (h2 : betterB a r = true) : betterB c a = false := by
  simp only [betterB, decide_eq_false_iff_not, decide_eq_true_eq, not_or,
    not_and, not_lt] at *
  omega

/-- The scan's result comes from the accumulator or from the list. -/
theorem foldl_pickMin_mem :
    ∀ (l : List TaskRow) (acc : Option TaskRow) (c : TaskRow),
      l.foldl pickMin acc = some c → acc = some c ∨ c ∈ l
  | [], _, _, h => Or.inl h
  | r :: rest, acc, c, h => by
      have step := foldl_pickMin_mem rest (pickMin acc r) c h
      rcases step with h' | h'
      · cases acc with
        | none =>
            simp only [pickMin] at h'
            exact Or.inr (by rw [← Option.some.inj h']; exact List.mem_cons_self r rest)
        | some a =>
            by_cases hb : betterB a r = true
            · simp only [pickMin, hb, if_true] at h'
              exact Or.inr (by rw [← Option.some.inj h']; exact List.mem_cons_self r rest)
            · simp only [pickMin, hb, if_false] at h'
              exact Or.inl h'
      · exact Or.inr (List.mem_cons_of_mem r h')

/-- The scan's result is preceded by no element of the list nor by the
accumulator. -/
theorem foldl_pickMin_min :
    ∀ (l : List TaskRow) (acc : Option TaskRow) (c : TaskRow),
      l.foldl pickMin acc = some c →
      (∀ x ∈ l, betterB c x = false) ∧
      (∀ a, acc = some a → betterB c a = false)
  | [], _, c, h => by
      simp only [List.foldl_nil] at h
      refine ⟨fun x hx => absurd hx (List.not_mem_nil x), fun a ha => ?_⟩
      rw [ha] at h
      rw [Option.some.inj h]
      exact betterB_irrefl c
  | r :: rest, acc, c, h => by
      have step := foldl_pickMin_min rest (pickMin acc r) c h
      cases acc with
      | none =>
          have hr : betterB c r = false := step.2 r rfl
          refine ⟨fun x hx => ?_, fun a ha => by cases ha⟩
          rcases List.mem_cons.1 hx with hx | hx
          · rw [hx]; exact hr
          · exact step.1 x hx
      | some a =>
          by_cases hb : betterB a r = true
          · have hr : betterB c r = false := step.2 r (by simp [pickMin, hb])
            refine ⟨fun x hx => ?_, fun a' ha' => ?_⟩
            · rcases List.mem_cons.1 hx with hx | hx
              · rw [hx]; exact hr
              · exact step.1 x hx
            · rw [← Option.some.inj ha']
              exact noBetter_of_replace hr hb
          · have hbf : betterB a r = false := by
              cases hba : betterB a r
              · rfl
              · exact absurd hba hb
            have hacc : betterB c a = false := step.2 a (by simp [pickMin, hbf])
            refine ⟨fun x hx => ?_, fun a' ha' => ?_⟩
            · rcases List.mem_cons.1 hx with hx | hx
              · rw [hx]; exact noBetter_trans hacc hbf
              · exact step.1 x hx
            · rw [← Option.some.inj ha']
              exact hacc

/-- If no row of the table is eligible, the candidate scan selects nothing. -/
theorem selectCandidate_eq_none {tb : Option String} {now : Nat}
    {db : List TaskRow} (h : ∀ r ∈ db, eligibleB tb now r = false) :
    selectCandidate tb now db = none := by
  have hfilter : db.filter (eligibleB tb now) = [] := by
    rw [List.filter_eq_nil_iff]
    intro a ha
    rw [h a ha]
    exact Bool.false_ne_true
  simp [selectCandidate, hfilter]

/-- C2 — lease_one postcondition: when no eligible row exists the call
returns nothing and leaves the table unchanged; when it returns a task, the
task is a selected row `c` of the table that was eligible (status queued, or
leased with an expired lease; attempts below max_attempts; not canceled;
target_backend null-equivalently matching), no other eligible row strictly
precedes `c` under `priority DESC, created_at ASC`, the returned task is
exactly `c` updated to status leased with leased_by, leased_at,
last_heartbeat_at, lease_expires_at = now + lease_seconds, attempts
incremented exactly when the prior status was queued, and the new table
rewrites only the claimed row (every other row is kept as-is). -/
theorem C2_lease_one_post (lb : String) (ls : Nat) (tb : Option String)
    (now : Nat) (db : List TaskRow) :
    ((∀ r ∈ db, eligibleB tb now r = false) →
      lease_one_task lb ls tb now db = (none, db)) ∧
    (∀ t db', leaseOneRow lb ls tb now db = (some t, db') →
      ∃ c, c ∈ db ∧ eligibleB tb now c = true ∧
        (∀ x ∈ db, eligibleB tb now x = true → betterB c x = false) ∧
        t = leaseUpdate lb ls now c ∧
        t.status = Status.leased ∧
        t.leased_by = some lb ∧
        t.leased_at = some now ∧
        t.last_heartbeat_at = some now ∧
        t.lease_expires_at = some (now + ls) ∧
        (c.status = Status.queued → t.attempts = c.attempts + 1) ∧
        (c.status ≠ Status.queued → t.attempts = c.attempts) ∧
        db' = db.map (fun r => if r.id = c.id then leaseUpdate lb ls now r else r) ∧
        (∀ r ∈ db, r.id ≠ c.id → r ∈ db')) := by
  constructor
  · intro hno
    simp [lease_one_task, leaseOneRow, selectCandidate_eq_none hno]
  · intro t db' h
    cases hsel : selectCandidate tb now db with
    | none =>
        rw [leaseOneRow, hsel] at h
        cases h
    | some c =>
        rw [leaseOneRow, hsel] at h
        obtain ⟨ht, hdb'⟩ := Prod.mk.inj h
        have hmem : c ∈ db.filter (eligibleB tb now) := by
          rcases foldl_pickMin_mem _ none c hsel with h' | h'
          · cases h'
          · exact h'
        have hc := List.mem_filter.1 hmem
        have ht2 : t = leaseUpdate lb ls now c := (Option.some.inj ht).symm
        refine ⟨c, hc.1, hc.2, ?_, ht2, ?_, ?_, ?_, ?_, ?_, ?_, ?_,
          hdb'.symm, ?_⟩
        · intro x hx hex
          exact (foldl_pickMin_min _ none c hsel).1 x
            (List.mem_filter.2 ⟨hx, hex⟩)
        · rw [ht2]; rfl
        · rw [ht2]; rfl
        · rw [ht2]; rfl
        · rw [ht2]; rfl
        · rw [ht2]; rfl
        · intro hq
          rw [ht2]
          simp [leaseUpdate, hq]
        · intro hq
          rw [ht2]
          simp [leaseUpdate, hq]
        · intro r hr hne
          rw [← hdb']
          have hfix : (if r.id = c.id then leaseUpdate lb ls now r else r) = r :=
            if_neg hne
          rw [← hfix]
          exact List.mem_map_of_mem _ hr

/-- Witness for C2: a table holding only a canceled row yields no lease and
is left unchanged. -/
theorem C2_lease_one_post_witness :
    lease_one_task "host:a" 120 (some "local") 100
        [{ row0 with status := Status.canceled }] =
      (none, [{ row0 with status := Status.canceled }]) :=
  (C2_lease_one_post "host:a" 120 (some "local") 100
    [{ row0 with status := Status.canceled }]).1
    (by intro r hr; rw [List.mem_singleton] at hr; subst hr; decide)

/-- A row that is not leased-stale passes through REQUEUE_LEASED_SQL. -/
theorem requeueLeasedRow_not_stale {now : Nat} {r : TaskRow}
    (h : leasedStaleB now r = false) : requeueLeasedRow now r = r := by
  simp [requeueLeasedRow, h]

/-- A row that is not heartbeat-stale passes through REQUEUE_RUNNING_SQL. -/
theorem requeueRunningRow_not_stale {stale now : Nat} {r : TaskRow}
    (h : heartbeatStaleB stale now r = false) :
    requeueRunningRow stale now r = r := by
  simp [requeueRunningRow, h]

/-- C9 — Janitor requeue_stale: without the apply flag it only reports the
two counts of matching rows and writes nothing; with the apply flag, in one
invocation, every leased row with an expired lease goes back to queued with
leased_by, leased_at, lease_expires_at and last_heartbeat_at cleared, every
running row whose last_heartbeat_at is older than now minus
running_stale_seconds goes back to queued with the same lease metadata
cleared and additionally backend, backend_job_id and started_at cleared,
and every other row is untouched. -/
theorem C9_requeue_stale (stale now : Nat) (db : List TaskRow) :
    (requeue_stale stale false now db).2 = db ∧
    (requeue_stale stale false now db).1 =
      ((db.filter (leasedStaleB now)).length,
       (db.filter (heartbeatStaleB stale now)).length) ∧
    (requeue_stale stale true now db).2 =
      db.map (fun r => requeueRunningRow stale now (requeueLeasedRow now r)) ∧
    (∀ r, leasedStaleB now r = true →
      requeueRunningRow stale now (requeueLeasedRow now r) =
        { r with
          status := Status.queued
          leased_by := none
          leased_at := none
          lease_expires_at := none
          last_heartbeat_at := none
          updated_at := now }) ∧
    (∀ r, heartbeatStaleB stale now r = true →
      requeueRunningRow stale now (requeueLeasedRow now r) =
        { r with
          status := Status.queued
          leased_by := none
          leased_at := none
          lease_expires_at := none
          last_heartbeat_at := none
          backend := none
          backend_job_id := none
          started_at := none
          updated_at := now }) ∧
    (∀ r, leasedStaleB now r = false → heartbeatStaleB stale now r = false →
      requeueRunningRow stale now (requeueLeasedRow now r) = r) := by
  refine ⟨rfl, rfl, ?_, ?_, ?_, ?_⟩
  · simp [requeue_stale, List.map_map, Function.comp]
  · intro r hl
    have h1 : requeueLeasedRow now r =
        { r with
          status := Status.queued
          leased_by := none
          leased_at := none
          lease_expires_at := none
          last_heartbeat_at := none
          updated_at := now } := by
      simp [requeueLeasedRow, hl]
    rw [h1, requeueRunningRow_not_stale (by simp [heartbeatStaleB])]
  · intro r hh
    have hstatus : r.status = Status.running := by
      simp only [heartbeatStaleB, Bool.and_eq_true, decide_eq_true_eq] at hh
      exact hh.1
    have hnotleased : leasedStaleB now r = false := by
      simp [leasedStaleB, hstatus]
    rw [requeueLeasedRow_not_stale hnotleased]
    simp [requeueRunningRow, hh]
  · intro r hl hh
    rw [requeueLeasedRow_not_stale hl, requeueRunningRow_not_stale hh]

/-- Witness for C9: the dry run over a one-row table writes nothing. -/
theorem C9_requeue_stale_witness :
    (requeue_stale 600 false 1000 [row0]).2 = [row0] :=
  (C9_requeue_stale 600 1000 [row0]).1

end TaskBalancer
